import Mathlib

/-!
Shallow embedding of the row-validation stage of the Dapper pipeline
(`src/validation/validator.py`): per-field type coercion, constraint
checking and row partitioning. Python raw/coerced values are modelled by
the inductive `Value` (with `vnull` standing for Python `None`); rows are
ordered association lists mirroring insertion-ordered Python dicts; rule
sets are ordered lists of (field name, rule) pairs mirroring the
insertion-ordered dict loaded from YAML.
-/

namespace Dapper

/-- Python values flowing through the validator: `None`, `str`, `int`, `bool`.
`vnull` also stands in for pandas NA, which `pd.isna` detects. -/
inductive Value where
  | vnull
  | vstr (s : String)
  | vint (n : Int)
  | vbool (b : Bool)
deriving DecidableEq, Repr

/-- Python `str(value)` on the values the validator handles. The `vnull`
case (`str(None) = "None"`) is included for totality; every call site in
the code guards with `pd.isna` or `is not None` first. -/
def Value.pystr : Value → String
  | .vnull => "None"
  | .vstr s => s
  | .vint n => toString n
  | .vbool b => if b then "True" else "False"

/-- Python `pd.isna(value)`: true exactly on `None`/NA. -/
def isna : Value → Bool
  | .vnull => true
  | _ => false

/-- The whitespace characters Python's `str.strip()` (and `int()`)
removes, restricted to ASCII. -/
def pyWhite (c : Char) : Bool :=
  c = ' ' || c = '\t' || c = '\n' || c = '\r' || c = '\x0b' || c = '\x0c'

/-- Python `s.strip()`: drop leading and trailing whitespace. -/
def pyStrip (s : String) : String :=
  ⟨((s.data.dropWhile pyWhite).reverse.dropWhile pyWhite).reverse⟩

/-- ASCII lower-casing of one character, as Python `str.lower()` does on
the ASCII range. -/
def lowerChar (c : Char) : Char :=
  if 65 ≤ c.toNat ∧ c.toNat ≤ 90 then Char.ofNat (c.toNat + 32) else c

/-- Python `s.lower()`. -/
def pyLower (s : String) : String := ⟨s.data.map lowerChar⟩

/-- All-digit run folded to a number, `none` when a non-digit appears. -/
def digitsToNatAux : List Char → Nat → Option Nat
  | [], acc => some acc
  | c :: cs, acc =>
    if c.isDigit then digitsToNatAux cs (acc * 10 + (c.toNat - 48)) else none

/-- Nonempty all-digit run to a number. -/
def digitsToNat : List Char → Option Nat
  | [] => none
  | c :: cs => digitsToNatAux (c :: cs) 0

/-- Python `int(s)` on a string: strips surrounding whitespace, then an
optional sign followed by a nonempty digit run, base 10. -/
def pyIntOfString (s : String) : Option Int :=
  match (pyStrip s).toList with
  | '+' :: cs => (digitsToNat cs).map (fun n => (n : Int))
  | '-' :: cs => (digitsToNat cs).map (fun n => -(n : Int))
  | cs => (digitsToNat cs).map (fun n => (n : Int))

/-- Python `int(value)` on the `Value` type: ints pass through, bools map
to 0/1, strings parse base 10, `None` fails. -/
def pyInt : Value → Option Int
  | .vnull => none
  | .vstr s => pyIntOfString s
  | .vint n => some n
  | .vbool b => some (if b then 1 else 0)

/-- `parse_boolean` from validator.py. -/
def parse_boolean (value : Value) : Bool × Value :=
  match value with
  | .vnull => (true, .vnull)
  | .vbool b => (true, .vbool b)
  | v =>
    let s := pyLower (pyStrip v.pystr)
    if (["true", "1", "yes", "y", "t"] : List String).contains s then (true, .vbool true)
    else if (["false", "0", "no", "n", "f"] : List String).contains s then (true, .vbool false)
    else (false, .vnull)

/-- `parse_integer` from validator.py: `pd.isna(value) or value == ""` short-circuits
to `(True, None)`; then `int(value)` under try/except. -/
def parse_integer (value : Value) : Bool × Value :=
  match value with
  | .vnull => (true, .vnull)
  | .vstr "" => (true, .vnull)
  | v =>
    match pyInt v with
    | some n => (true, .vint n)
    | none => (false, .vnull)

/-- `parse_string` from validator.py: `None` stays `None`, everything else
is stringified. Never fails. -/
def parse_string (value : Value) : Bool × Value :=
  match value with
  | .vnull => (true, .vnull)
  | v => (true, .vstr v.pystr)

/-- Parsed `strptime` fields relevant to a calendar date; missing
directives fall back to CPython's defaults 1900-01-01. -/
structure DateParts where
  y : Option Nat := none
  m : Option Nat := none
  d : Option Nat := none
deriving DecidableEq, Repr

/-- Exactly four digits (CPython's regex for `%Y`), returning the year and
the rest of the input. -/
def read4 : List Char → Option (Nat × List Char)
  | a :: b :: c :: d :: rest =>
    if a.isDigit && b.isDigit && c.isDigit && d.isDigit then
      some ((a.toNat - 48) * 1000 + (b.toNat - 48) * 100 + (c.toNat - 48) * 10
            + (d.toNat - 48), rest)
    else none
  | _ => none

/-- One- or two-digit field with value in `1..hi`, two digits preferred
(CPython's `%d`/`%m` regexes, e.g. `3[01]|[12]\d|0[1-9]|[1-9]`, prefer the
two-digit alternatives and fall back to a single nonzero digit). -/
def takeNum2 (hi : Nat) : List Char → Option (Nat × List Char)
  | [] => none
  | a :: rest =>
    if a.isDigit then
      let av := a.toNat - 48
      match rest with
      | b :: rest2 =>
        if b.isDigit then
          let v := av * 10 + (b.toNat - 48)
          if 1 ≤ v && v ≤ hi then some (v, rest2)
          else if 1 ≤ av then some (av, b :: rest2) else none
        else if 1 ≤ av then some (av, rest) else none
      | [] => if 1 ≤ av then some (av, []) else none
    else none

/-- Core of `datetime.strptime` restricted to the directives the rule sets
use (`%Y`, `%m`, `%d`) plus literal characters; any other directive makes
the format fail, and leftover input after the format is consumed is a
failure (CPython raises on unconverted data, caught by the caller). -/
def strpGo : List Char → List Char → DateParts → Option DateParts
  | [], [], acc => some acc
  | [], _ :: _, _ => none
  | '%' :: spec, s, acc =>
    match spec with
    | 'Y' :: fr =>
      match read4 s with
      | some (v, rest) => strpGo fr rest { acc with y := some v }
      | none => none
    | 'm' :: fr =>
      match takeNum2 12 s with
      | some (v, rest) => strpGo fr rest { acc with m := some v }
      | none => none
    | 'd' :: fr =>
      match takeNum2 31 s with
      | some (v, rest) => strpGo fr rest { acc with d := some v }
      | none => none
    | _ => none
  | c :: fr, x :: srest, acc => if c = x then strpGo fr srest acc else none
  | _ :: _, [], _ => none

/-- Gregorian leap-year test, as Python's `calendar`/`datetime` use. -/
def isLeap (y : Nat) : Bool := (y % 4 == 0 && y % 100 != 0) || y % 400 == 0

/-- Days in a month, leap years included. -/
def daysInMonth (y m : Nat) : Nat :=
  if m = 2 then (if isLeap y then 29 else 28)
  else if m = 4 ∨ m = 6 ∨ m = 9 ∨ m = 11 then 30 else 31

/-- `datetime.strptime(s, fmt).date()` for the supported directives:
parse, apply the 1900-01-01 defaults, then the `datetime` constructor's
validity check (year ≥ 1; day within the month). Month range 1..12 and
year ≤ 9999 are already enforced by the directive parsers. -/
def strptimeDate (s fmt : String) : Option (Nat × Nat × Nat) :=
  match strpGo fmt.toList s.toList {} with
  | none => none
  | some parts =>
    let y := parts.y.getD 1900
    let m := parts.m.getD 1
    let d := parts.d.getD 1
    if 1 ≤ y && d ≤ daysInMonth y m then some (y, m, d) else none

/-- Zero-pad to two digits. -/
def pad2 (n : Nat) : String := if n < 10 then "0" ++ toString n else toString n

/-- Zero-pad to four digits. -/
def pad4 (n : Nat) : String :=
  if n < 10 then "000" ++ toString n
  else if n < 100 then "00" ++ toString n
  else if n < 1000 then "0" ++ toString n
  else toString n

/-- `date.isoformat()`: `YYYY-MM-DD`. -/
def isoDate (y m d : Nat) : String := pad4 y ++ "-" ++ pad2 m ++ "-" ++ pad2 d

/-- The format loop of `parse_date`: try each format in order on the
trimmed text, first full parse wins. -/
def dateTryFormats (s : String) : List String → Bool × Value
  | [] => (false, .vnull)
  | fmt :: rest =>
    match strptimeDate s fmt with
    | some (y, m, d) => (true, .vstr (isoDate y m d))
    | none => dateTryFormats s rest

/-- `parse_date` from validator.py. -/
def parse_date (value : Value) (formats : List String) : Bool × Value :=
  match value with
  | .vnull => (true, .vnull)
  | .vstr "" => (true, .vnull)
  | v => dateTryFormats (pyStrip v.pystr) formats

/-- Abstract syntax of the regular expressions a rule's `regex` key may
hold: empty language, empty string, single character, concatenation,
alternation, Kleene star. -/
inductive Regex where
  | rfail
  | reps
  | rchar (c : Char)
  | rseq (a b : Regex)
  | ralt (a b : Regex)
  | rstar (a : Regex)
deriving DecidableEq, Repr

/-- Whether the regex accepts the empty string. -/
def nullable : Regex → Bool
  | .rfail => false
  | .reps => true
  | .rchar _ => false
  | .rseq a b => nullable a && nullable b
  | .ralt a b => nullable a || nullable b
  | .rstar _ => true

/-- Brzozowski derivative of a regex by one character. -/
def rderiv : Regex → Char → Regex
  | .rfail, _ => .rfail
  | .reps, _ => .rfail
  | .rchar c, x => if c = x then .reps else .rfail
  | .rseq a b, x =>
    if nullable a then .ralt (.rseq (rderiv a x) b) (rderiv b x)
    else .rseq (rderiv a x) b
  | .ralt a b, x => .ralt (rderiv a x) (rderiv b x)
  | .rstar a, x => .rseq (rderiv a x) (.rstar a)

/-- Whether the regex accepts exactly this character list (Python
`re.fullmatch` semantics), decided by iterated derivatives. -/
def fullMatchL (r : Regex) : List Char → Bool
  | [] => nullable r
  | c :: cs => fullMatchL (rderiv r c) cs

/-- Python `re.match(r, s)` treated as a predicate: true iff the regex
accepts some initial segment of `s` — anchored at the start of the string,
unmatched trailing characters permitted. -/
def reMatch (r : Regex) (s : String) : Bool :=
  (List.range (s.toList.length + 1)).any (fun n => fullMatchL r (s.toList.take n))

/-- One rule of the rule set, the keys `validate_row` reads via
`rule.get`, with the same defaults. Unknown type tags are kept verbatim in
`ftype` (the code falls back to string coercion on them). -/
structure Rule where
  required : Bool := false
  ftype : String := "string"
  max_length : Option Nat := none
  regex : Option Regex := none
  allowed_values : Option (List Value) := none
  formats : List String := ["%Y-%m-%d"]
deriving DecidableEq, Repr

/-- Outcome of processing one field inside `validate_row`'s loop: either
an early `return False` with a reason, or a value written into `new_row`
before the loop continues. -/
inductive FieldResult where
  | fatal (reason : String)
  | resolved (v : Value)
deriving DecidableEq, Repr

/-- The type-dispatch block of `validate_row`: pick the coercer matching
`rule.type`, defaulting to the string coercer on unknown tags. -/
def coerceValue (rule : Rule) (val : Value) : Bool × Value :=
  if rule.ftype = "string" then parse_string val
  else if rule.ftype = "integer" then parse_integer val
  else if rule.ftype = "boolean" then parse_boolean val
  else if rule.ftype = "date" then parse_date val rule.formats
  else parse_string val

/-- The `allowed values` block of `validate_row`: skipped when the rule
has no allow-list or an empty one (Python truthiness) or the coerced value
is `None`; otherwise membership is decided on string forms. -/
def checkAllowed (field : String) (rule : Rule) (parsed : Value) : FieldResult :=
  match rule.allowed_values with
  | none => .resolved parsed
  | some [] => .resolved parsed
  | some (a :: rest) =>
    if parsed ≠ Value.vnull ∧ parsed.pystr ∉ ((a :: rest).map Value.pystr) then
      if rule.required then .fatal (field ++ "_not_allowed")
      else .resolved Value.vnull
    else .resolved parsed

/-- The `regex check` block of `validate_row`, then the allow-list block. -/
def checkRegex (field : String) (rule : Rule) (parsed : Value) : FieldResult :=
  match rule.regex with
  | none => checkAllowed field rule parsed
  | some r =>
    if parsed ≠ Value.vnull ∧ reMatch r parsed.pystr = false then
      if rule.required then .fatal (field ++ "_regex_mismatch")
      else .resolved Value.vnull
    else checkAllowed field rule parsed

/-- The `length check` block of `validate_row`, then the regex block. -/
def checkLength (field : String) (rule : Rule) (parsed : Value) : FieldResult :=
  match rule.max_length with
  | none => checkRegex field rule parsed
  | some maxLen =>
    if parsed ≠ Value.vnull ∧ parsed.pystr.length > maxLen then
      if rule.required then
        .fatal (field ++ "_too_long (" ++ toString parsed.pystr.length ++ ">"
                ++ toString maxLen ++ ")")
      else .resolved Value.vnull
    else checkRegex field rule parsed

/-- The whole body of `validate_row`'s loop for one `(field, rule)` pair:
coercion, then the three constraint blocks in source order. -/
def validateField (field : String) (rule : Rule) (val : Value) : FieldResult :=
  match coerceValue rule val with
  | (false, _) =>
    if rule.required then .fatal (field ++ "_type_invalid") else .resolved Value.vnull
  | (true, parsed) => checkLength field rule parsed

/-- A row: insertion-ordered association list, mirroring a Python dict. -/
abbrev Row := List (String × Value)

/-- `row.get(field, None)`. -/
def rowGet : Row → String → Value
  | [], _ => .vnull
  | (k, v) :: rest, f => if k = f then v else rowGet rest f

/-- `field in row`. -/
def rowHasKey : Row → String → Bool
  | [], _ => false
  | (k, _) :: rest, f => k = f || rowHasKey rest f

/-- `row[field] = v` on a dict: overwrite in place when the key exists,
append otherwise. -/
def rowSet : Row → String → Value → Row
  | [], f, v => [(f, v)]
  | (k, w) :: rest, f, v =>
    if k = f then (k, v) :: rest else (k, w) :: rowSet rest f v

/-- The loop of `validate_row`: raw values are read from the original
`row`, resolved values are written into the working copy `acc`
(`new_row`), and the first fatal field returns immediately. -/
def validateGo (row : Row) : Row → List (String × Rule) → Bool × Row × String
  | acc, [] => (true, acc, "")
  | acc, (field, rule) :: rest =>
    match validateField field rule (rowGet row field) with
    | .fatal reason => (false, acc, reason)
    | .resolved v => validateGo row (rowSet acc field v) rest

/-- `validate_row(row, rules)`: returns `(is_valid_row, new_row,
discard_reason)`; `new_row` starts as a copy of `row`. -/
def validate_row (row : Row) (rules : List (String × Rule)) : Bool × Row × String :=
  validateGo row row rules

/-- The partition loop of `main`: accepted rows keep `new_row`, rejected
rows are the original raw row plus a `discard_reason` entry. -/
def processRows (rules : List (String × Rule)) : List Row → List Row × List Row
  | [] => ([], [])
  | row :: rest =>
    let res := validate_row row rules
    let (vs, ds) := processRows rules rest
    if res.1 then (res.2.1 :: vs, ds)
    else (vs, rowSet row "discard_reason" (Value.vstr res.2.2) :: ds)

/-! ### Helper lemmas on rows and the validation loop -/

theorem rowGet_rowSet_self (row : Row) (k : String) (v : Value) :
    rowGet (rowSet row k v) k = v := by
  induction row with
  | nil => simp [rowSet, rowGet]
  | cons p rest ih =>
    obtain ⟨k', w⟩ := p
    by_cases h : k' = k <;> simp [rowSet, rowGet, h, ih]

theorem rowGet_rowSet_ne (row : Row) (k k' : String) (v : Value) (h : k' ≠ k) :
    rowGet (rowSet row k v) k' = rowGet row k' := by
  induction row with
  | nil =>
    have hne : ¬ k = k' := fun hk => h (Eq.symm hk)
    simp only [rowSet, rowGet, if_neg hne]
  | cons p rest ih =>
    obtain ⟨k0, w⟩ := p
    by_cases h0 : k0 = k <;> by_cases h1 : k0 = k' <;>
      simp_all [rowSet, rowGet]

theorem rowHasKey_rowSet_self (row : Row) (k : String) (v : Value) :
    rowHasKey (rowSet row k v) k = true := by
  induction row with
  | nil => simp [rowSet, rowHasKey]
  | cons p rest ih =>
    obtain ⟨k0, w⟩ := p
    by_cases h0 : k0 = k <;> simp [rowSet, rowHasKey, h0, ih]

theorem rowHasKey_rowSet_ne (row : Row) (k k' : String) (v : Value) (h : k' ≠ k) :
    rowHasKey (rowSet row k v) k' = rowHasKey row k' := by
  induction row with
  | nil =>
    simp only [rowSet, rowHasKey, Bool.or_false, decide_eq_true_eq]
    exact decide_eq_false (fun hk => h hk.symm)
  | cons p rest ih =>
    obtain ⟨k0, w⟩ := p
    by_cases h0 : k0 = k <;> simp_all [rowSet, rowHasKey]

theorem checkAllowed_fatal_required {f : String} {rule : Rule} {parsed : Value}
    {r : String} (h : checkAllowed f rule parsed = .fatal r) :
    rule.required = true := by
  unfold checkAllowed at h
  split at h
  · exact absurd h (by simp)
  · exact absurd h (by simp)
  · split at h
    · split at h
      · assumption
      · exact absurd h (by simp)
    · exact absurd h (by simp)

theorem checkRegex_fatal_required {f : String} {rule : Rule} {parsed : Value}
    {r : String} (h : checkRegex f rule parsed = .fatal r) :
    rule.required = true := by
  unfold checkRegex at h
  split at h
  · exact checkAllowed_fatal_required h
  · split at h
    · split at h
      · assumption
      · exact absurd h (by simp)
    · exact checkAllowed_fatal_required h

theorem checkLength_fatal_required {f : String} {rule : Rule} {parsed : Value}
    {r : String} (h : checkLength f rule parsed = .fatal r) :
    rule.required = true := by
  unfold checkLength at h
  split at h
  · exact checkRegex_fatal_required h
  · split at h
    · split at h
      · assumption
      · exact absurd h (by simp)
    · exact checkRegex_fatal_required h

/-- A fatal field failure can only come out of a required rule: all four
early returns of the loop body sit under `if required`. -/
theorem validateField_fatal_required {f : String} {rule : Rule} {val : Value}
    {r : String} (h : validateField f rule val = .fatal r) :
    rule.required = true := by
  unfold validateField at h
  split at h
  · split at h
    · assumption
    · exact absurd h (by simp)
  · exact checkLength_fatal_required h

/-- The loop rejects iff some field of the rule set comes out fatal; the
accumulating working copy never influences per-field outcomes, which read
raw values from the original row. -/
theorem validateGo_false_iff (row : Row) :
    ∀ (rules : List (String × Rule)) (acc : Row),
      (validateGo row acc rules).1 = false ↔
        ∃ p ∈ rules, ∃ r, validateField p.1 p.2 (rowGet row p.1) = .fatal r := by
  intro rules
  induction rules with
  | nil => intro acc; simp [validateGo]
  | cons p rest ih =>
    intro acc
    obtain ⟨field, rule⟩ := p
    cases hf : validateField field rule (rowGet row field) with
    | fatal reason =>
      simp only [validateGo, hf]
      constructor
      · intro _; exact ⟨(field, rule), by simp, reason, hf⟩
      · intro _; trivial
    | resolved v =>
      simp only [validateGo, hf]
      rw [ih (rowSet acc field v)]
      constructor
      · rintro ⟨q, hq, r, hr⟩; exact ⟨q, by simp [hq], r, hr⟩
      · rintro ⟨q, hq, r, hr⟩
        rcases List.mem_cons.mp hq with h | h
        · subst h; rw [hf] at hr; exact absurd hr (by simp)
        · exact ⟨q, h, r, hr⟩

/-- Reaching a fatal field freezes the outcome: the result is
`(False, new_row-so-far, reason)` and is independent of every rule listed
after the fatal field. -/
theorem validateGo_fatal_first (row : Row) :
    ∀ (pre : List (String × Rule)) (acc : Row) (f : String) (rl : Rule) (r : String),
      (∀ p ∈ pre, ∃ v, validateField p.1 p.2 (rowGet row p.1) = .resolved v) →
      validateField f rl (rowGet row f) = .fatal r →
      ∃ acc', ∀ rest, validateGo row acc (pre ++ (f, rl) :: rest) = (false, acc', r) := by
  intro pre
  induction pre with
  | nil =>
    intro acc f rl r _ hf
    exact ⟨acc, fun rest => by simp [validateGo, hf]⟩
  | cons p pre' ih =>
    intro acc f rl r hpre hf
    obtain ⟨g, gr⟩ := p
    obtain ⟨v, hv⟩ := hpre (g, gr) (by simp)
    obtain ⟨acc', hacc'⟩ :=
      ih (rowSet acc g v) f rl r (fun q hq => hpre q (by simp [hq])) hf
    exact ⟨acc', fun rest => by simp [validateGo, hv]; exact hacc' rest⟩

/-- Keys already present in the working copy survive the rest of an
accepting scan. -/
theorem validateGo_hasKey_mono (row : Row) :
    ∀ (rules : List (String × Rule)) (acc out : Row) (r : String) (k : String),
      validateGo row acc rules = (true, out, r) →
      rowHasKey acc k = true → rowHasKey out k = true := by
  intro rules
  induction rules with
  | nil =>
    intro acc out r k h hk
    simp only [validateGo] at h
    cases h; exact hk
  | cons p rest ih =>
    intro acc out r k h hk
    obtain ⟨field, rule⟩ := p
    cases hf : validateField field rule (rowGet row field) with
    | fatal reason => simp [validateGo, hf] at h
    | resolved v =>
      simp only [validateGo, hf] at h
      refine ih (rowSet acc field v) out r k h ?_
      by_cases hke : k = field
      · subst hke; exact rowHasKey_rowSet_self acc k v
      · rw [rowHasKey_rowSet_ne acc field k v hke]; exact hk

/-- Frame property of an accepting scan: every scanned field name ends up
a key of the working copy, and keys not named by any rule keep their
original value and presence. -/
theorem validateGo_accept_frame (row : Row) :
    ∀ (rules : List (String × Rule)) (acc out : Row) (r : String),
      validateGo row acc rules = (true, out, r) →
      (∀ p ∈ rules, rowHasKey out p.1 = true) ∧
      (∀ k, (∀ p ∈ rules, p.1 ≠ k) →
        rowGet out k = rowGet acc k ∧ rowHasKey out k = rowHasKey acc k) := by
  intro rules
  induction rules with
  | nil =>
    intro acc out r h
    simp only [validateGo] at h
    obtain ⟨rfl, rfl⟩ := (by cases h; exact ⟨rfl, rfl⟩ : acc = out ∧ "" = r)
    exact ⟨by simp, fun k _ => ⟨rfl, rfl⟩⟩
  | cons p rest ih =>
    intro acc out r h
    obtain ⟨field, rule⟩ := p
    cases hf : validateField field rule (rowGet row field) with
    | fatal reason => simp [validateGo, hf] at h
    | resolved v =>
      simp only [validateGo, hf] at h
      obtain ⟨ih1, ih2⟩ := ih (rowSet acc field v) out r h
      constructor
      · intro q hq
        rcases List.mem_cons.mp hq with hq | hq
        · subst hq
          exact validateGo_hasKey_mono row rest (rowSet acc field v) out r field h
            (rowHasKey_rowSet_self acc field v)
        · exact ih1 q hq
      · intro k hk
        have hfk : field ≠ k := hk (field, rule) (by simp)
        have := ih2 k (fun q hq => hk q (by simp [hq]))
        rw [rowGet_rowSet_ne acc field k v (fun hkk => hfk hkk.symm),
            rowHasKey_rowSet_ne acc field k v (fun hkk => hfk hkk.symm)] at this
        exact this

/-! ### Claim theorems -/

/-- C1: `validate_row` stops at the first required-field failure in
rule-set iteration order: when every field before `f` resolves and `f`
comes out fatal with reason `r`, the row is rejected, the single reported
reason is `r`, and the rules listed after `f` are never evaluated — the
outcome is literally the same whatever they are (for fields `[a, b]` both
required and invalid, the reason is `a`'s, never `b`'s). -/
theorem C1_short_circuit (row : Row) (pre : List (String × Rule)) (f : String)
    (rl : Rule) (r : String) (rest rest' : List (String × Rule))
    (hpre : ∀ p ∈ pre, ∃ v, validateField p.1 p.2 (rowGet row p.1) = .resolved v)
    (hf : validateField f rl (rowGet row f) = .fatal r) :
    (validate_row row (pre ++ (f, rl) :: rest)).1 = false ∧
    (validate_row row (pre ++ (f, rl) :: rest)).2.2 = r ∧
    validate_row row (pre ++ (f, rl) :: rest) = validate_row row (pre ++ (f, rl) :: rest') := by
  obtain ⟨acc', hacc'⟩ := validateGo_fatal_first row pre row f rl r hpre hf
  unfold validate_row
  rw [hacc' rest, hacc' rest']
  exact ⟨rfl, rfl, rfl⟩

/-- Witness for C1 at the spec's own example: fields `[a, b]`, both
required integers, both raw values non-numeric; the reported reason is
`a_type_invalid`, and dropping `b` from the rule set changes nothing. -/
theorem C1_short_circuit_witness :
    (validate_row [("a", Value.vstr "x"), ("b", Value.vstr "y")]
        [("a", { ftype := "integer", required := true }),
         ("b", { ftype := "integer", required := true })]).2.2 = "a_type_invalid" ∧
    validate_row [("a", Value.vstr "x"), ("b", Value.vstr "y")]
        [("a", { ftype := "integer", required := true }),
         ("b", { ftype := "integer", required := true })]
      = validate_row [("a", Value.vstr "x"), ("b", Value.vstr "y")]
        [("a", { ftype := "integer", required := true })] := by
  have h := C1_short_circuit [("a", Value.vstr "x"), ("b", Value.vstr "y")] []
    "a" { ftype := "integer", required := true } "a_type_invalid"
    [("b", { ftype := "integer", required := true })] []
    (by simp) (by decide)
  exact ⟨h.2.1, h.2.2⟩

/-- An optional field failing the allow-list degrades to `None`. -/
theorem checkAllowed_opt_fail {f : String} {rule : Rule} {parsed a : Value}
    {rest : List Value} (hreq : rule.required = false)
    (ha : rule.allowed_values = some (a :: rest)) (hne : parsed ≠ Value.vnull)
    (hm : parsed.pystr ∉ (a :: rest).map Value.pystr) :
    checkAllowed f rule parsed = .resolved Value.vnull := by
  simp only [checkAllowed, ha]
  rw [if_pos ⟨hne, hm⟩]
  simp [hreq]

/-- An optional field failing the regex check degrades to `None`. -/
theorem checkRegex_opt_fail {f : String} {rule : Rule} {parsed : Value} {r : Regex}
    (hreq : rule.required = false) (hr : rule.regex = some r)
    (hne : parsed ≠ Value.vnull) (hm : reMatch r parsed.pystr = false) :
    checkRegex f rule parsed = .resolved Value.vnull := by
  simp only [checkRegex, hr]
  rw [if_pos ⟨hne, hm⟩]
  simp [hreq]

/-- An optional field failing the length check degrades to `None`. -/
theorem checkLength_opt_fail {f : String} {rule : Rule} {parsed : Value} {n : Nat}
    (hreq : rule.required = false) (hn : rule.max_length = some n)
    (hne : parsed ≠ Value.vnull) (hlen : parsed.pystr.length > n) :
    checkLength f rule parsed = .resolved Value.vnull := by
  simp only [checkLength, hn]
  rw [if_pos ⟨hne, hlen⟩]
  simp [hreq]

/-- Allow-list failure on an optional field degrades to `None` seen from
the regex block, whatever the regex check itself does. -/
theorem checkRegex_opt_allowed_fail {f : String} {rule : Rule} {parsed a : Value}
    {rest : List Value} (hreq : rule.required = false)
    (ha : rule.allowed_values = some (a :: rest)) (hne : parsed ≠ Value.vnull)
    (hm : parsed.pystr ∉ (a :: rest).map Value.pystr) :
    checkRegex f rule parsed = .resolved Value.vnull := by
  unfold checkRegex
  split
  · exact checkAllowed_opt_fail hreq ha hne hm
  · split
    · simp [hreq]
    · exact checkAllowed_opt_fail hreq ha hne hm

/-- Regex failure on an optional field degrades to `None` seen from the
length block, whatever the length check itself does. -/
theorem checkLength_opt_regex_fail {f : String} {rule : Rule} {parsed : Value} {r : Regex}
    (hreq : rule.required = false) (hr : rule.regex = some r)
    (hne : parsed ≠ Value.vnull) (hm : reMatch r parsed.pystr = false) :
    checkLength f rule parsed = .resolved Value.vnull := by
  unfold checkLength
  split
  · exact checkRegex_opt_fail hreq hr hne hm
  · split
    · simp [hreq]
    · exact checkRegex_opt_fail hreq hr hne hm

/-- Allow-list failure on an optional field degrades to `None` seen from
the length block, whatever the earlier checks do. -/
theorem checkLength_opt_allowed_fail {f : String} {rule : Rule} {parsed a : Value}
    {rest : List Value} (hreq : rule.required = false)
    (ha : rule.allowed_values = some (a :: rest)) (hne : parsed ≠ Value.vnull)
    (hm : parsed.pystr ∉ (a :: rest).map Value.pystr) :
    checkLength f rule parsed = .resolved Value.vnull := by
  unfold checkLength
  split
  · exact checkRegex_opt_allowed_fail hreq ha hne hm
  · split
    · simp [hreq]
    · exact checkRegex_opt_allowed_fail hreq ha hne hm

/-- C2: the required/optional asymmetry. A fatal outcome only ever comes
from a required rule (so optional fields never reject a row); the row is
rejected iff some (necessarily required) field of the rule set comes out
fatal; the spec's example — optional string `summary` with raw `None` —
is accepted with `summary = None`; and on an optional rule every
failure — coercion failure, over-length, regex mismatch, or an allow-list
miss — resolves the field to null; in particular an optional integer field
failing its allow-list yields an accepted row with that field null. -/
theorem C2_required_optional_policy :
    (∀ (f : String) (rule : Rule) (val : Value) (r : String),
       validateField f rule val = .fatal r → rule.required = true) ∧
    (∀ (row : Row) (rules : List (String × Rule)),
       (validate_row row rules).1 = false ↔
         ∃ p ∈ rules, p.2.required = true ∧
           ∃ r, validateField p.1 p.2 (rowGet row p.1) = .fatal r) ∧
    validate_row [("summary", Value.vnull)] [("summary", { ftype := "string" })]
      = (true, [("summary", Value.vnull)], "") ∧
    (∀ (f : String) (rule : Rule) (val : Value), rule.required = false →
       ((coerceValue rule val).1 = false →
          validateField f rule val = .resolved Value.vnull) ∧
       (∀ parsed, coerceValue rule val = (true, parsed) →
          ((∃ n, rule.max_length = some n ∧ parsed ≠ Value.vnull ∧
              parsed.pystr.length > n) →
             validateField f rule val = .resolved Value.vnull) ∧
          ((∃ r, rule.regex = some r ∧ parsed ≠ Value.vnull ∧
              reMatch r parsed.pystr = false) →
             validateField f rule val = .resolved Value.vnull) ∧
          ((∃ a rest, rule.allowed_values = some (a :: rest) ∧ parsed ≠ Value.vnull ∧
              parsed.pystr ∉ (a :: rest).map Value.pystr) →
             validateField f rule val = .resolved Value.vnull))) ∧
    validate_row [("rtype_id", Value.vstr "13")]
        [("rtype_id", { ftype := "integer",
                        allowed_values := some [Value.vint 14, Value.vint 15] })]
      = (true, [("rtype_id", Value.vnull)], "") := by
  refine ⟨fun f rule val r h => validateField_fatal_required h, fun row rules => ?_,
    by decide, ?_, by decide⟩
  · rw [validate_row, validateGo_false_iff row rules row]
    constructor
    · rintro ⟨p, hp, r, hr⟩
      exact ⟨p, hp, validateField_fatal_required hr, r, hr⟩
    · rintro ⟨p, hp, _, r, hr⟩
      exact ⟨p, hp, r, hr⟩
  · intro f rule val hreq
    constructor
    · intro hc
      cases hco : coerceValue rule val with
      | mk ok parsed =>
        rw [hco] at hc
        simp only at hc
        subst hc
        simp [validateField, hco, hreq]
    · intro parsed hco
      have hvf : validateField f rule val = checkLength f rule parsed := by
        simp [validateField, hco]
      refine ⟨?_, ?_, ?_⟩
      · rintro ⟨n, hn, hne, hlen⟩
        rw [hvf]; exact checkLength_opt_fail hreq hn hne hlen
      · rintro ⟨r, hr, hne, hm⟩
        rw [hvf]; exact checkLength_opt_regex_fail hreq hr hne hm
      · rintro ⟨a, rest, ha, hne, hm⟩
        rw [hvf]; exact checkLength_opt_allowed_fail hreq ha hne hm

/-- Witness for C2: the policy at a concrete fatal outcome, a concrete
rejected row, an optional allow-list failure resolving to null, and an
optional coercion failure resolving to null. -/
theorem C2_required_optional_policy_witness :
    ({ ftype := "integer", required := true } : Rule).required = true ∧
    (validate_row [("a", Value.vstr "x")]
        [("a", { ftype := "integer", required := true })]).1 = false ∧
    validateField "rtype_id"
        { ftype := "integer", allowed_values := some [Value.vint 14, Value.vint 15] }
        (Value.vstr "13") = .resolved Value.vnull ∧
    validateField "rtype_id"
        { ftype := "integer", allowed_values := some [Value.vint 14, Value.vint 15] }
        (Value.vstr "zzz") = .resolved Value.vnull := by
  refine ⟨C2_required_optional_policy.1 "a" _ (Value.vstr "x") "a_type_invalid" (by decide),
    ?_, ?_, ?_⟩
  · exact (C2_required_optional_policy.2.1 [("a", Value.vstr "x")]
        [("a", { ftype := "integer", required := true })]).mpr
      ⟨("a", { ftype := "integer", required := true }), by simp, rfl, "a_type_invalid", by decide⟩
  · exact ((C2_required_optional_policy.2.2.2.1 "rtype_id"
        { ftype := "integer", allowed_values := some [Value.vint 14, Value.vint 15] }
        (Value.vstr "13") rfl).2 (Value.vint 13) (by decide)).2.2
      ⟨Value.vint 14, [Value.vint 15], rfl, by decide, by decide⟩
  · exact (C2_required_optional_policy.2.2.2.1 "rtype_id"
        { ftype := "integer", allowed_values := some [Value.vint 14, Value.vint 15] }
        (Value.vstr "zzz") rfl).1 (by decide)

/-- C3: every row in the rejected partition is the original raw row plus
a single `discard_reason` entry holding the reported reason; writing that
one fresh key changes no other key's value or presence (so all raw values
survive unmodified — the working copy with nulled-out fields is dropped). -/
theorem C3_rejected_raw_preserved :
    (∀ (rules : List (String × Rule)) (rows : List Row) (d : Row),
       d ∈ (processRows rules rows).2 →
         ∃ row ∈ rows, (validate_row row rules).1 = false ∧
           d = rowSet row "discard_reason" (Value.vstr (validate_row row rules).2.2)) ∧
    (∀ (row : Row) (v : Value),
       rowGet (rowSet row "discard_reason" v) "discard_reason" = v ∧
       ∀ k, k ≠ "discard_reason" →
         rowGet (rowSet row "discard_reason" v) k = rowGet row k ∧
         rowHasKey (rowSet row "discard_reason" v) k = rowHasKey row k) := by
  constructor
  · intro rules rows
    induction rows with
    | nil => intro d hd; simp [processRows] at hd
    | cons row rest ih =>
      intro d hd
      simp only [processRows] at hd
      by_cases hv : (validate_row row rules).1
      · simp only [hv, if_pos] at hd
        obtain ⟨q, hq, h⟩ := ih d hd
        exact ⟨q, by simp [hq], h⟩
      · rw [if_neg (by simp [hv])] at hd
        rcases List.mem_cons.mp hd with h | h
        · exact ⟨row, by simp, by simp [hv], h⟩
        · obtain ⟨q, hq, hrest⟩ := ih d h
          exact ⟨q, by simp [hq], hrest⟩
  · intro row v
    exact ⟨rowGet_rowSet_self row _ v, fun k hk =>
      ⟨rowGet_rowSet_ne row _ k v hk, rowHasKey_rowSet_ne row _ k v hk⟩⟩

/-- Witness for C3: a one-row batch whose row fails its required integer
field; the rejected partition holds the raw row plus `discard_reason`,
and the untouched raw value is still readable under its key. -/
theorem C3_rejected_raw_preserved_witness :
    (∃ row ∈ [[(("a" : String), Value.vstr "x")]],
       (validate_row row [("a", { ftype := "integer", required := true })]).1 = false ∧
       [("a", Value.vstr "x"), ("discard_reason", Value.vstr "a_type_invalid")]
         = rowSet row "discard_reason"
             (Value.vstr (validate_row row
                [("a", { ftype := "integer", required := true })]).2.2)) ∧
    rowGet (rowSet [(("a" : String), Value.vstr "x")] "discard_reason"
        (Value.vstr "a_type_invalid")) "a" = Value.vstr "x" := by
  constructor
  · exact C3_rejected_raw_preserved.1 [("a", { ftype := "integer", required := true })]
      [[("a", Value.vstr "x")]]
      [("a", Value.vstr "x"), ("discard_reason", Value.vstr "a_type_invalid")]
      (by decide)
  · exact ((C3_rejected_raw_preserved.2 [("a", Value.vstr "x")]
      (Value.vstr "a_type_invalid")).2 "a" (by decide)).1

/-- C9: frame of an accepted row. Every field named by the rule set is a
key of the output (even when absent from the input row), and every input
key no rule names keeps its original value and presence — passed through
unexamined. -/
theorem C9_accepted_frame (row : Row) (rules : List (String × Rule)) (out : Row)
    (r : String) (h : validate_row row rules = (true, out, r)) :
    (∀ p ∈ rules, rowHasKey out p.1 = true) ∧
    (∀ k, (∀ p ∈ rules, p.1 ≠ k) →
       rowGet out k = rowGet row k ∧ rowHasKey out k = rowHasKey row k) :=
  validateGo_accept_frame row rules row out r h

/-- Witness for C9: rule set `[x, y]` with `y` absent from the input row;
the accepted output gains key `y` and the non-ruled key `extra` keeps its
raw value. -/
theorem C9_accepted_frame_witness :
    rowHasKey [(("x" : String), Value.vint 7), ("extra", Value.vstr "keep"),
        ("y", Value.vnull)] "y" = true ∧
    rowGet [(("x" : String), Value.vint 7), ("extra", Value.vstr "keep"),
        ("y", Value.vnull)] "extra" = Value.vstr "keep" := by
  have h := C9_accepted_frame
    [("x", Value.vstr "7"), ("extra", Value.vstr "keep")]
    [("x", { ftype := "integer", required := true }), ("y", { ftype := "string" })]
    [("x", Value.vint 7), ("extra", Value.vstr "keep"), ("y", Value.vnull)]
    "" (by decide)
  exact ⟨h.1 ("y", { ftype := "string" }) (by simp),
    (h.2 "extra" (by decide)).1.trans (by decide)⟩

/-- A `None` coerced value sails through the allow-list block. -/
theorem checkAllowed_vnull (f : String) (rule : Rule) :
    checkAllowed f rule Value.vnull = .resolved Value.vnull := by
  unfold checkAllowed; split <;> simp

/-- A `None` coerced value sails through the regex block. -/
theorem checkRegex_vnull (f : String) (rule : Rule) :
    checkRegex f rule Value.vnull = .resolved Value.vnull := by
  unfold checkRegex; split <;> simp [checkAllowed_vnull]

/-- A `None` coerced value sails through the length block. -/
theorem checkLength_vnull (f : String) (rule : Rule) :
    checkLength f rule Value.vnull = .resolved Value.vnull := by
  unfold checkLength; split <;> simp [checkRegex_vnull]

/-- On a nonempty string, `parse_date` hands the trimmed text to the
format loop. -/
theorem parse_date_vstr (s : String) (h : s ≠ "") (fmts : List String) :
    parse_date (.vstr s) fmts = dateTryFormats (pyStrip s) fmts := by
  unfold parse_date
  split
  · simp_all
  · simp_all
  · simp [Value.pystr]

/-- C4 counterexample: the claim sends an empty raw value to
`(true, null)`, but `pd.isna("")` is false, so the empty string falls to
the text path, lands in neither literal set, and fails coercion. -/
theorem C4_empty_string_counterexample :
    parse_boolean (Value.vstr "") ≠ (true, Value.vnull) ∧
    parse_boolean (Value.vstr "") = (false, Value.vnull) := by decide

/-- C4 (amended): the boolean coercer on a null raw value returns
`(true, null)`; an already boolean-typed value passes through; any other
value is stringified, trimmed and lower-cased and matched against the two
literal sets, everything else — the empty string included — failing with
`(false, null)`. -/
theorem C4_boolean_coercer :
    parse_boolean Value.vnull = (true, Value.vnull) ∧
    (∀ b, parse_boolean (Value.vbool b) = (true, Value.vbool b)) ∧
    (∀ v : Value, v ≠ Value.vnull → (∀ b, v ≠ Value.vbool b) →
       parse_boolean v =
         (if (["true", "1", "yes", "y", "t"] : List String).contains
              (pyLower (pyStrip v.pystr)) then (true, Value.vbool true)
          else if (["false", "0", "no", "n", "f"] : List String).contains
              (pyLower (pyStrip v.pystr)) then (true, Value.vbool false)
          else (false, Value.vnull))) ∧
    (∀ s ∈ (["true", "1", "yes", "y", "t"] : List String),
       parse_boolean (Value.vstr s) = (true, Value.vbool true)) ∧
    (∀ s ∈ (["false", "0", "no", "n", "f"] : List String),
       parse_boolean (Value.vstr s) = (true, Value.vbool false)) := by
  refine ⟨rfl, fun b => rfl, ?_, by decide, by decide⟩
  intro v hn hb
  cases v with
  | vnull => exact absurd rfl hn
  | vbool b => exact absurd rfl (hb b)
  | vstr s => rfl
  | vint n => rfl

/-- Witness for C4's amended theorem: the general text path evaluated at
`" Y "`, which trims and lower-cases to a truthy literal. -/
theorem C4_boolean_coercer_witness :
    parse_boolean (Value.vstr " Y ") = (true, Value.vbool true) := by
  rw [C4_boolean_coercer.2.2.1 (Value.vstr " Y ") (by decide) (by decide)]
  decide

/-- C5: with `max_length = 65` on a required field, a coerced text of
length exactly 65 is accepted unchanged and one of length 66 is fatal
with reason exactly `<field>_too_long (66>65)`. -/
theorem C5_length_boundary (f s : String) :
    (s.length = 65 →
       validateField f { required := true, max_length := some 65 } (Value.vstr s)
         = .resolved (Value.vstr s)) ∧
    (s.length = 66 →
       validateField f { required := true, max_length := some 65 } (Value.vstr s)
         = .fatal (f ++ "_too_long (66>65)")) := by
  constructor
  · intro h
    simp [validateField, coerceValue, parse_string, checkLength, checkRegex,
      checkAllowed, Value.pystr, h]
  · intro h
    simp [validateField, coerceValue, parse_string, checkLength, checkRegex,
      checkAllowed, Value.pystr, h, String.append_assoc]
    congr 1

/-- Witness for C5 at concrete strings of lengths 65 and 66. -/
theorem C5_length_boundary_witness :
    validateField "title" { required := true, max_length := some 65 }
        (Value.vstr "aaaaaaaaaaaaaaaaaaaaaaaaaaaaaaaaaaaaaaaaaaaaaaaaaaaaaaaaaaaaaaaaa")
      = .resolved (Value.vstr
          "aaaaaaaaaaaaaaaaaaaaaaaaaaaaaaaaaaaaaaaaaaaaaaaaaaaaaaaaaaaaaaaaa") ∧
    validateField "title" { required := true, max_length := some 65 }
        (Value.vstr "aaaaaaaaaaaaaaaaaaaaaaaaaaaaaaaaaaaaaaaaaaaaaaaaaaaaaaaaaaaaaaaaaa")
      = .fatal "title_too_long (66>65)" := by
  exact ⟨(C5_length_boundary "title" _).1 (by decide),
    (C5_length_boundary "title" _).2 (by decide)⟩

/-- C6: the date coercer returns `(true, null)` on null and on the empty
string; on other input it hands the trimmed text to the format list tried
in order — the first format that fully parses wins and yields the
`YYYY-MM-DD` form, a failing format defers to the rest of the list, and a
list with no matching format fails with `(false, null)`; in particular,
with formats `["%d/%m/%Y", "%Y-%m-%d"]`, `"05/01/2024"` and
`"2024-01-05"` both resolve to `"2024-01-05"` and `"not-a-date"` fails. -/
theorem C6_date_coercer :
    (∀ fmts, parse_date Value.vnull fmts = (true, Value.vnull) ∧
       parse_date (Value.vstr "") fmts = (true, Value.vnull)) ∧
    (∀ (s : String), s ≠ "" →
       parse_date (Value.vstr s) [] = (false, Value.vnull)) ∧
    (∀ (s fmt : String) (rest : List String) (y m d : Nat), s ≠ "" →
       strptimeDate (pyStrip s) fmt = some (y, m, d) →
       parse_date (Value.vstr s) (fmt :: rest) = (true, Value.vstr (isoDate y m d))) ∧
    (∀ (s fmt : String) (rest : List String), s ≠ "" →
       strptimeDate (pyStrip s) fmt = none →
       parse_date (Value.vstr s) (fmt :: rest) = parse_date (Value.vstr s) rest) ∧
    parse_date (Value.vstr "05/01/2024") ["%d/%m/%Y", "%Y-%m-%d"]
      = (true, Value.vstr "2024-01-05") ∧
    parse_date (Value.vstr "2024-01-05") ["%d/%m/%Y", "%Y-%m-%d"]
      = (true, Value.vstr "2024-01-05") ∧
    parse_date (Value.vstr "not-a-date") ["%d/%m/%Y", "%Y-%m-%d"]
      = (false, Value.vnull) := by
  refine ⟨fun fmts => ⟨rfl, rfl⟩, ?_, ?_, ?_, by decide, by decide, by decide⟩
  · intro s hs
    rw [parse_date_vstr s hs]
    rfl
  · intro s fmt rest y m d hs hfmt
    rw [parse_date_vstr s hs]
    simp [dateTryFormats, hfmt]
  · intro s fmt rest hs hfmt
    rw [parse_date_vstr s hs, parse_date_vstr s hs]
    simp [dateTryFormats, hfmt]

/-- Witness for C6's general parts at concrete inputs: the empty format
list fails; the winning first format is used; a failing first format
defers to the second. -/
theorem C6_date_coercer_witness :
    parse_date (Value.vstr "2024-01-05") [] = (false, Value.vnull) ∧
    parse_date (Value.vstr "05/01/2024") ["%d/%m/%Y"]
      = (true, Value.vstr (isoDate 2024 1 5)) ∧
    parse_date (Value.vstr "2024-01-05") ["%d/%m/%Y", "%Y-%m-%d"]
      = parse_date (Value.vstr "2024-01-05") ["%Y-%m-%d"] := by
  refine ⟨C6_date_coercer.2.1 "2024-01-05" (by decide), ?_, ?_⟩
  · exact C6_date_coercer.2.2.1 "05/01/2024" "%d/%m/%Y" [] 2024 1 5 (by decide) (by decide)
  · exact C6_date_coercer.2.2.2.1 "2024-01-05" "%d/%m/%Y" ["%Y-%m-%d"] (by decide) (by decide)

/-- C7: the allow-list is decided on string forms. The spec's rule
`{allowed_values: [14, 15], required: true, type: integer}` accepts raw
`"15"` resolved to integer `15` and fatally rejects `13` with
`rtype_id_not_allowed`; in general, for a non-null coerced value and a
nonempty allow-list, the field passes the allow-list block iff the
value's string form equals some allowed literal's string form. -/
theorem C7_allowed_by_string_form :
    validateField "rtype_id"
        { ftype := "integer", required := true,
          allowed_values := some [Value.vint 14, Value.vint 15] } (Value.vstr "15")
      = .resolved (Value.vint 15) ∧
    validateField "rtype_id"
        { ftype := "integer", required := true,
          allowed_values := some [Value.vint 14, Value.vint 15] } (Value.vint 13)
      = .fatal "rtype_id_not_allowed" ∧
    (∀ (f : String) (rule : Rule) (parsed a : Value) (rest : List Value),
       rule.allowed_values = some (a :: rest) → parsed ≠ Value.vnull →
       (checkAllowed f rule parsed = .resolved parsed ↔
          parsed.pystr ∈ (a :: rest).map Value.pystr)) := by
  refine ⟨by decide, by decide, ?_⟩
  intro f rule parsed a rest ha hn
  by_cases hm : parsed.pystr ∈ (a :: rest).map Value.pystr
  · have hcond : ¬ (parsed ≠ Value.vnull ∧ parsed.pystr ∉ (a :: rest).map Value.pystr) :=
      fun hcontra => hcontra.2 hm
    simp only [checkAllowed, ha]
    rw [if_neg hcond]
    exact iff_of_true rfl hm
  · have hcond : parsed ≠ Value.vnull ∧ parsed.pystr ∉ (a :: rest).map Value.pystr := ⟨hn, hm⟩
    simp only [checkAllowed, ha]
    rw [if_pos hcond]
    constructor
    · intro heq
      exfalso
      by_cases hr : rule.required = true
      · rw [if_pos hr] at heq; exact FieldResult.noConfusion heq
      · rw [if_neg hr] at heq
        have hv : Value.vnull = parsed := by injection heq
        exact hn hv.symm
    · intro hmem; exact absurd hmem hm

/-- Witness for C7's general part: raw `"15"` coerced to `vint 15` passes
the allow-list of `[14, 15]` because the string forms agree. -/
theorem C7_allowed_by_string_form_witness :
    checkAllowed "rtype_id"
        { ftype := "integer", required := true,
          allowed_values := some [Value.vint 14, Value.vint 15] } (Value.vint 15)
      = .resolved (Value.vint 15) := by
  exact (C7_allowed_by_string_form.2.2 "rtype_id" _ (Value.vint 15) (Value.vint 14)
    [Value.vint 15] rfl (by decide)).mpr (by decide)

/-- C8: the pattern constraint has prefix semantics (Python `re.match`),
not full-string semantics: the check passes iff some initial segment of
the value's text matches the regex, trailing characters notwithstanding;
a required non-null value matching no initial segment is fatal with
`<field>_regex_mismatch`; and the pattern `ab` accepts the value `"abc"`
even though the full string does not match. -/
theorem C8_regex_is_anchored_search :
    (∀ (r : Regex) (s : String),
       reMatch r s = true ↔
         ∃ n, n ≤ s.toList.length ∧ fullMatchL r (s.toList.take n) = true) ∧
    (∀ (f : String) (r : Regex) (s : String), reMatch r s = true →
       validateField f { required := true, regex := some r } (Value.vstr s)
         = .resolved (Value.vstr s)) ∧
    (∀ (f : String) (r : Regex) (s : String), reMatch r s = false →
       validateField f { required := true, regex := some r } (Value.vstr s)
         = .fatal (f ++ "_regex_mismatch")) ∧
    validateField "f" { required := true, regex := some (.rseq (.rchar 'a') (.rchar 'b')) }
        (Value.vstr "abc") = .resolved (Value.vstr "abc") ∧
    fullMatchL (.rseq (.rchar 'a') (.rchar 'b')) "abc".toList = false := by
  refine ⟨?_, ?_, ?_, by decide, by decide⟩
  · intro r s
    simp [reMatch, List.any_eq_true, List.mem_range, Nat.lt_succ_iff]
  · intro f r s h
    simp [validateField, coerceValue, parse_string, checkLength, checkRegex,
      checkAllowed, Value.pystr, h]
  · intro f r s h
    simp [validateField, coerceValue, parse_string, checkLength, checkRegex,
      checkAllowed, Value.pystr, h]

/-- Witness for C8: the pattern `ab` against `"abc"` — some prefix (the
two-character one) fully matches, so `re.match` succeeds and the required
field resolves to the value unchanged. -/
theorem C8_regex_is_anchored_search_witness :
    (∃ n, n ≤ ("abc" : String).toList.length ∧
       fullMatchL (.rseq (.rchar 'a') (.rchar 'b')) (("abc" : String).toList.take n) = true) ∧
    validateField "external_link"
        { required := true, regex := some (.rseq (.rchar 'a') (.rchar 'b')) }
        (Value.vstr "abc") = .resolved (Value.vstr "abc") := by
  refine ⟨(C8_regex_is_anchored_search.1 (.rseq (.rchar 'a') (.rchar 'b')) "abc").mp
    (by decide), ?_⟩
  exact C8_regex_is_anchored_search.2.1 "external_link"
    (.rseq (.rchar 'a') (.rchar 'b')) "abc" (by decide)

/-- C10 counterexample: for a required *string* field an empty raw string
does not coerce to null — `pd.isna("")` is false and `parse_string` has no
empty-string case — so the field resolves to the empty string, not null,
contradicting the claim's "empty string for string … types" clause. -/
theorem C10_empty_string_counterexample :
    validate_row [("f", Value.vstr "")] [("f", { ftype := "string", required := true })]
      = (true, [("f", Value.vstr "")], "") ∧
    Value.vstr "" ≠ Value.vnull := by decide

/-- C10 (amended): whenever coercion succeeds with a null value — null
input for every type, and the empty string additionally for the integer
and date coercers (the string coercer keeps `""` as `""`, the boolean
coercer fails on it) — all three constraint checks are skipped, the field
resolves to null even under `required = true`, and the row can still be
accepted: `required` only selects how failures are handled. -/
theorem C10_null_coercion_passes :
    (∀ (f : String) (rule : Rule) (val : Value),
       coerceValue rule val = (true, Value.vnull) →
       validateField f rule val = .resolved Value.vnull) ∧
    (∀ fmts, parse_integer Value.vnull = (true, Value.vnull) ∧
       parse_integer (Value.vstr "") = (true, Value.vnull) ∧
       parse_date Value.vnull fmts = (true, Value.vnull) ∧
       parse_date (Value.vstr "") fmts = (true, Value.vnull) ∧
       parse_string Value.vnull = (true, Value.vnull) ∧
       parse_boolean Value.vnull = (true, Value.vnull)) ∧
    validate_row [("n", Value.vstr "")]
        [("n", { ftype := "integer", required := true, max_length := some 1,
                 regex := some (Regex.rchar '1'),
                 allowed_values := some [Value.vint 14] })]
      = (true, [("n", Value.vnull)], "") := by
  refine ⟨?_, fun fmts => ⟨rfl, rfl, rfl, rfl, rfl, rfl⟩, by decide⟩
  intro f rule val hc
  simp [validateField, hc, checkLength_vnull]

/-- Witness for C10's amended theorem: a required date field whose raw
value is the empty string coerces to null and resolves to null. -/
theorem C10_null_coercion_passes_witness :
    validateField "created_at" { ftype := "date", required := true } (Value.vstr "")
      = .resolved Value.vnull :=
  C10_null_coercion_passes.1 "created_at" { ftype := "date", required := true }
    (Value.vstr "") (by decide)

end Dapper
